import Mathlib

/-!
# Verification of the m-email-orchestrator triage pipeline

A shallow embedding, over `List Char`, of the email triage pipeline:
the weighted spam/phishing scorer (`spam-detector`), the natural-language
calendar-event extractor (`calendar-extractor`), the tone heuristic of the
reply generator, the ICS serializer, and the master orchestrator.

Modelling conventions:
* JavaScript strings are modelled as `List Char` (sequences of Unicode code
  points; the sources never rely on UTF-16 surrogate behaviour).
* JavaScript `number` arithmetic on spam weights is modelled with exact
  rationals.  Every sum of a subset of the weights 0.30, 0.25, 0.20, 0.10,
  0.35 compares to the thresholds 0.5 and 1 the same way in IEEE binary64
  and in ℚ (the one sum that hits a threshold exactly, 0.30 + 0.20, is
  exactly 0.5 in binary64 as well), so the rational model decides `isSpam`
  and the clamp exactly as the JavaScript code does.
* Timestamps (`Date`) are modelled as epoch milliseconds (`Int`).
* The date/time recognizer (`chrono-node`), the LLM-backed collaborators and
  wall-clock/randomness are external inputs per the spec; they enter the
  embedding as explicit parameters.
* JavaScript regular expressions are translated into a small backtracking
  regex interpreter (`RE` / `reRun`) with JavaScript's ordered-alternation
  and greedy-repetition semantics, or into dedicated scanners when the
  pattern uses word boundaries.
-/

set_option autoImplicit false

namespace EmailOrch

/-- Characters of a string literal (our model of a JavaScript string). -/
def chars (s : String) : List Char := s.data

/-- The apostrophe character (U+0027). -/
def apoc : Char := Char.ofNat 39

/-- Lower-casing as performed by `String.prototype.toLowerCase` on the
characters this code base inspects: ASCII letters, the Latin-1 uppercase
range, and the two Latin-Extended-A letters (Ğ, Ş) occurring in the
indicator word lists.  Other characters are left unchanged. -/
def jsToLower (c : Char) : Char :=
  if 'A' ≤ c ∧ c ≤ 'Z' then Char.ofNat (c.toNat + 32)
  else if 0xC0 ≤ c.toNat ∧ c.toNat ≤ 0xDE ∧ c.toNat ≠ 0xD7 then Char.ofNat (c.toNat + 32)
  else if c.toNat = 0x11E then Char.ofNat 0x11F
  else if c.toNat = 0x15E then Char.ofNat 0x15F
  else c

/-- Lower-casing of a whole string. -/
def lower (cs : List Char) : List Char := cs.map jsToLower

/-- ASCII digit. -/
def isAsciiDigit (c : Char) : Bool := '0' ≤ c && c ≤ '9'

/-- ASCII letter. -/
def isAsciiAlpha (c : Char) : Bool :=
  ('a' ≤ c && c ≤ 'z') || ('A' ≤ c && c ≤ 'Z')

/-- ASCII letter or digit. -/
def isAsciiAlnum (c : Char) : Bool := isAsciiAlpha c || isAsciiDigit c

/-- JavaScript regex word character `\w` = `[A-Za-z0-9_]`. -/
def isWordChar (c : Char) : Bool := isAsciiAlnum c || c = '_'

/-- JavaScript regex whitespace class `\s`. -/
def isJsWs (c : Char) : Bool :=
  c = ' ' || c = '\t' || c = '\n' || c = '\r' ||
  c.toNat = 0x0B || c.toNat = 0x0C || c.toNat = 0xA0 || c.toNat = 0x1680 ||
  (0x2000 ≤ c.toNat && c.toNat ≤ 0x200A) ||
  c.toNat = 0x2028 || c.toNat = 0x2029 || c.toNat = 0x202F ||
  c.toNat = 0x205F || c.toNat = 0x3000 || c.toNat = 0xFEFF

/-- JavaScript line terminator (what `.` does not match). -/
def isLineTerm (c : Char) : Bool :=
  c = '\n' || c = '\r' || c.toNat = 0x2028 || c.toNat = 0x2029

/-- Case-sensitive "starts with". -/
def startsL : List Char → List Char → Bool
  | [], _ => true
  | _ :: _, [] => false
  | p :: ps, c :: cs => p == c && startsL ps cs

/-- Case-sensitive "ends with". -/
def endsL (p cs : List Char) : Bool := startsL p.reverse cs.reverse

/-- Case-sensitive substring containment (`String.prototype.includes`). -/
def subL (pat : List Char) : List Char → Bool
  | [] => startsL pat []
  | c :: cs => startsL pat (c :: cs) || subL pat cs

/-- Case-insensitive "starts with" (pattern and text compared through
`jsToLower`, as a `/.../i` literal does). -/
def ciStarts : List Char → List Char → Bool
  | [], _ => true
  | _ :: _, [] => false
  | p :: ps, c :: cs => jsToLower p == jsToLower c && ciStarts ps cs

/-- Case-insensitive substring containment. -/
def ciHas (pat : List Char) : List Char → Bool
  | [] => ciStarts pat []
  | c :: cs => ciStarts pat (c :: cs) || ciHas pat cs

/-- JavaScript `trim` (strip `\s` from both ends). -/
def trimL (cs : List Char) : List Char :=
  ((cs.dropWhile isJsWs).reverse.dropWhile isJsWs).reverse

/-- Decimal digits of `n`, left-padded with zeros to width `w`. -/
def padNum (w : Nat) (n : Nat) : List Char :=
  let d := Nat.toDigits 10 n
  List.replicate (w - d.length) '0' ++ d

/-- `parseInt(-, 10)` on a run of ASCII digits. -/
def natOfDigits (ds : List Char) : Nat :=
  ds.foldl (fun n c => n * 10 + (c.toNat - 48)) 0

/-!
## A small regex interpreter

`RE` covers exactly the constructs the source patterns use: literals
(matched case-insensitively, as every source regex carries the `i` flag),
character classes, concatenation, ordered alternation, greedy `?` and
greedy `*`.  `reRun` interprets a stack of regexes against the input with
JavaScript's backtracking order: alternation tries the left branch first,
`?` and `*` try the consuming branch first.  It returns the unconsumed
suffix of the first successful match, hence also the match extent.
The fuel only bounds `*` unrollings; callers pass enough fuel that no
JavaScript-reachable path is cut off (every starred body in the source
patterns is a one-character class, so a path never iterates a star more
often than the number of characters it consumes).
-/

/-- Regex abstract syntax. -/
inductive RE where
  | lit : List Char → RE
  | cls : (Char → Bool) → RE
  | seq : RE → RE → RE
  | alt : RE → RE → RE
  | opt : RE → RE
  | star : RE → RE

/-- Size of a regex, for termination. -/
def reW : RE → Nat
  | .lit _ => 1
  | .cls _ => 1
  | .seq a b => reW a + reW b + 1
  | .alt a b => reW a + reW b + 1
  | .opt a => reW a + 1
  | .star a => reW a + 1

/-- Size of a regex stack, for termination. -/
def stackW : List RE → Nat
  | [] => 0
  | r :: rs => reW r + stackW rs

/-- Backtracking interpreter: match the whole stack, in order, against `cs`;
return the unconsumed suffix of the first match found in JavaScript's
exploration order.  Fuel is consumed at every step so that the recursion is
structural (and hence computes by kernel reduction); `reFuel` below
over-approximates the length of any exploration path, so no path a
JavaScript engine would take is ever cut off. -/
def reRun : Nat → List RE → List Char → Option (List Char)
  | 0, _, _ => none
  | _ + 1, [], cs => some cs
  | fuel + 1, .lit l :: rs, cs =>
      if ciStarts l cs then reRun fuel rs (cs.drop l.length) else none
  | fuel + 1, .cls p :: rs, cs =>
      match cs with
      | c :: cs2 => if p c then reRun fuel rs cs2 else none
      | [] => none
  | fuel + 1, .seq a b :: rs, cs => reRun fuel (a :: b :: rs) cs
  | fuel + 1, .alt a b :: rs, cs =>
      (reRun fuel (a :: rs) cs).orElse fun _ => reRun fuel (b :: rs) cs
  | fuel + 1, .opt a :: rs, cs =>
      (reRun fuel (a :: rs) cs).orElse fun _ => reRun fuel rs cs
  | fuel + 1, .star a :: rs, cs =>
      (reRun fuel (a :: .star a :: rs) cs).orElse fun _ => reRun fuel rs cs

/-- Sufficient fuel for one `reRun` call on `cs`: every step except a
star unrolling strictly decreases `stackW + 2·|remaining text|`, and in all
source patterns a star's body is a one-character class, so a star unrolling
is immediately followed by a step that consumes a character or ends the
path. -/
def reFuel (re : RE) (cs : List Char) : Nat := reW re + 2 * cs.length + 8

/-- `pattern.test(text)`: does the regex match at some position? -/
def reTest (re : RE) : List Char → Bool
  | [] => (reRun (reFuel re []) [re] []).isSome
  | c :: cs => (reRun (reFuel re (c :: cs)) [re] (c :: cs)).isSome || reTest re cs

/-- Worker for `jsMatchAll`: scan left to right, collecting non-overlapping
leftmost matches, resuming after each match (advancing one character when
the position does not match, as a global regex's `lastIndex` does). -/
def reGlobalAux (re : RE) : Nat → List Char → List (List Char)
  | 0, _ => []
  | _ + 1, [] => []
  | f + 1, c :: cs =>
      match reRun (reFuel re (c :: cs)) [re] (c :: cs) with
      | some rest =>
          let len := (c :: cs).length - rest.length
          if len = 0 then reGlobalAux re f cs
          else (c :: cs).take len :: reGlobalAux re f rest
      | none => reGlobalAux re f cs

/-- `text.match(/pattern/g)`: the list of all matches (empty when none). -/
def jsMatchAll (re : RE) (cs : List Char) : List (List Char) :=
  reGlobalAux re (cs.length + 1) cs

/-- Right-nested alternation of a list of regexes, in order. -/
def altL : List RE → RE
  | [] => .cls fun _ => false
  | [r] => r
  | r :: rs => .alt r (altL rs)

/-- `\s*` -/
def wsStar : RE := .star (.cls isJsWs)

/-- `.` (any character except a line terminator). -/
def dotCh : RE := .cls fun c => !isLineTerm c

/-- `.*` -/
def dotStar : RE := .star (.cls fun c => !isLineTerm c)

/-!
## Data model (`src/types/email.ts`)
-/

/-- An inbound email (`EmailSchema`): `from` may be a bare address or
`"Display Name <addr>"`. -/
structure Email where
  from_ : List Char
  subject : List Char
  body : List Char
  attachments : List (List Char) := []
  cc : List (List Char) := []
  bcc : List (List Char) := []
  date : Option (List Char) := none

/-- The five boolean spam features. -/
structure SpamFeatures where
  senderDomainMismatch : Bool
  suspiciousLinks : Bool
  urgencyWords : Bool
  grammarIssues : Bool
  knownSpamPatterns : Bool
deriving DecidableEq

/-- Result of the spam scorer. -/
structure SpamResult where
  score : ℚ
  isSpam : Bool
  reasons : List (List Char)
  features : SpamFeatures

/-!
## Spam/phishing scorer (`src/agents/spam-detector.ts`)
-/

/-- `WEIGHTS.senderDomainMismatch` -/
def wSenderDomainMismatch : ℚ := 0.30
/-- `WEIGHTS.suspiciousLinks` -/
def wSuspiciousLinks : ℚ := 0.25
/-- `WEIGHTS.urgencyWords` -/
def wUrgencyWords : ℚ := 0.20
/-- `WEIGHTS.grammarIssues` -/
def wGrammarIssues : ℚ := 0.10
/-- `WEIGHTS.knownSpamPatterns` -/
def wKnownSpamPatterns : ℚ := 0.35

/-- `URGENCY_WORDS` (all entries are already lower case in the source). -/
def URGENCY_WORDS : List (List Char) :=
  [chars "urgent", chars "immediately", chars "act now", chars "action required",
   chars "verify your account", chars "confirm your identity", chars "suspended",
   chars "limited time", chars "expires", chars "within 24 hours", chars "within 48 hours",
   chars "click here immediately", chars "respond immediately",
   chars "don" ++ [apoc] ++ chars "t delay",
   chars "final notice", chars "last chance", chars "account will be closed",
   chars "verify now", chars "confirm now", chars "update now",
   chars "you have won", chars "been selected", chars "claim your",
   chars "send your bank", chars "bank details", chars "winner"]

/-- `SPAM_PATTERNS`, translated regex by regex, in source order. -/
def SPAM_PATTERNS : List RE :=
  [.seq (.lit (chars "congratulations")) (.seq dotStar (.lit (chars "won"))),
   .seq (.lit (chars "you"))
     (.seq (.alt (.lit ([apoc] ++ chars "ve")) (.lit (chars " have")))
       (.lit (chars " been selected"))),
   .seq (.lit (chars "claim your "))
     (altL [.lit (chars "prize"), .lit (chars "reward"), .lit (chars "money")]),
   .lit (chars "nigerian prince"),
   .lit (chars "wire transfer"),
   .seq (.lit (chars "inheritance")) (.seq dotStar (.lit (chars "million"))),
   .lit (chars "lottery winner"),
   .seq (.lit (chars "click "))
     (.seq (altL [.lit (chars "here"), .lit (chars "below")])
       (.seq (.lit (chars " to "))
         (altL [.lit (chars "verify"), .lit (chars "confirm"), .lit (chars "update")]))),
   .seq (.lit (chars "your account "))
     (.seq (altL [.lit (chars "has been"), .lit (chars "will be")])
       (.seq (.lit (chars " "))
         (altL [.lit (chars "suspended"), .lit (chars "terminated"), .lit (chars "closed")]))),
   .seq (.lit (chars "password")) (.seq dotStar (.lit (chars "expired"))),
   .seq (.lit (chars "unusual activity")) (.seq dotStar (.lit (chars "account"))),
   .seq (.lit (chars "we detected")) (.seq dotStar (.lit (chars "suspicious"))),
   .seq (.lit (chars "dear ")) (.seq (.opt (.lit (chars "valued "))) (.lit (chars "customer"))),
   .seq (.lit (chars "dear "))
     (altL [.lit (chars "sir"), .lit (chars "madam"), .lit (chars "user")]),
   .lit (chars "you have won"),
   .lit (chars "claim your prize"),
   .seq (.lit (chars "send")) (.seq (.opt (.lit (chars "ing"))) (.lit (chars " your bank details"))),
   .lit (chars "lottery"),
   .seq (.lit (chars "million "))
     (altL [.lit (chars "dollars"), .lit (chars "usd"), .lit (chars "$")]),
   .lit (chars "prince"),
   .seq (.lit (chars "don")) (.seq (.opt (.lit [apoc])) (.lit (chars "t delay"))),
   .lit (chars "account will be closed")]

/-- `[^\s<>"]`, the character class of a URL body. -/
def isUrlChar (c : Char) : Bool := !(isJsWs c || c = '<' || c = '>' || c = '"')

/-- `/https?:\/\/[^\s<>"]+/gi` -/
def urlRE : RE :=
  .seq (.lit (chars "http"))
    (.seq (.opt (.lit (chars "s")))
      (.seq (.lit (chars "://")) (.seq (.cls isUrlChar) (.star (.cls isUrlChar)))))

/-- `[o0]` under `/i`. -/
def isO0 (c : Char) : Bool := jsToLower c = 'o' || c = '0'

/-- `[l1]` under `/i`. -/
def isL1 (c : Char) : Bool := jsToLower c = 'l' || c = '1'

/-- `\d{1,3}` (greedy). -/
def d13 : RE :=
  .seq (.cls isAsciiDigit) (.seq (.opt (.cls isAsciiDigit)) (.opt (.cls isAsciiDigit)))

/-- `SUSPICIOUS_URL_PATTERNS`, in source order. -/
def SUSPICIOUS_URL_PATTERNS : List RE :=
  [.lit (chars "bit.ly"), .lit (chars "tinyurl.com"), .lit (chars "goo.gl"),
   .lit (chars "t.co"), .lit (chars "ow.ly"), .lit (chars "is.gd"),
   .lit (chars "buff.ly"), .lit (chars "adf.ly"), .lit (chars "tiny.cc"),
   .seq (.lit (chars "http"))
     (.seq (.opt (.lit (chars "s")))
       (.seq (.lit (chars "://"))
         (.seq d13 (.seq (.lit (chars "."))
           (.seq d13 (.seq (.lit (chars "."))
             (.seq d13 (.seq (.lit (chars ".")) d13)))))))),
   .seq (.lit (chars "paypa")) (.seq (.cls isL1) (.seq dotStar (.lit (chars ".com")))),
   .seq (.lit (chars "amaz")) (.seq (.cls isO0) (.seq (.lit (chars "n")) (.seq dotStar (.lit (chars ".com"))))),
   .seq (.lit (chars "g")) (.seq (.cls isO0) (.seq (.cls isO0) (.seq (.lit (chars "gle")) (.seq dotStar (.lit (chars ".com")))))),
   .seq (.lit (chars "micr")) (.seq (.cls isO0) (.seq (.lit (chars "s")) (.seq (.cls isO0) (.seq (.lit (chars "ft")) (.seq dotStar (.lit (chars ".com"))))))),
   .seq (.lit (chars "app")) (.seq (.cls isL1) (.seq (.lit (chars "e")) (.seq dotStar (.lit (chars ".com")))))]

/-- Subject and body joined with a space, as `${email.subject} ${email.body}`. -/
def textOf (email : Email) : List Char := email.subject ++ chars " " ++ email.body

/-- `extractSenderDomain`: the first `@` followed by at least one
`[a-zA-Z0-9.-]` character; the captured run, lower-cased. -/
def isDomainChar (c : Char) : Bool := isAsciiAlnum c || c = '.' || c = '-'

/-- See `isDomainChar`. -/
def extractSenderDomain : List Char → Option (List Char)
  | [] => none
  | c :: cs =>
      if c = '@' then
        let run := cs.takeWhile isDomainChar
        if run.isEmpty then extractSenderDomain cs else some (lower run)
      else extractSenderDomain cs

/-- `extractDisplayName`: `/^([^<]+)</` — everything before the first `<`
(which must exist and not be the first character), trimmed and lower-cased. -/
def extractDisplayName (from_ : List Char) : Option (List Char) :=
  let pre := from_.takeWhile (fun c => !(c = '<'))
  if pre.isEmpty || pre.length = from_.length then none
  else some (lower (trimL pre))

/-- `/([a-zA-Z0-9]+)\.(com|org|net|io)/` on the (lower-cased) display name:
the first alphanumeric run followed by `.com`/`.org`/`.net`/`.io`; returns
the captured run. -/
def domTldScan : List Char → Option (List Char)
  | [] => none
  | c :: cs =>
      if isAsciiAlnum c then
        let run := (c :: cs).takeWhile isAsciiAlnum
        let rest := (c :: cs).drop run.length
        match rest with
        | '.' :: r2 =>
            if [chars "com", chars "org", chars "net", chars "io"].any
                (fun t => startsL t r2)
            then some run else domTldScan cs
        | _ => domTldScan cs
      else domTldScan cs

/-- The brand tokens checked against the display name. -/
def brandTokens : List (List Char) :=
  [chars "paypal", chars "amazon", chars "google", chars "microsoft",
   chars "apple", chars "netflix", chars "bank"]

/-- `checkSenderDomainMismatch`. -/
def checkSenderDomainMismatch (email : Email) : Bool :=
  match extractSenderDomain email.from_, extractDisplayName email.from_ with
  | some domain, some displayName =>
      let brandHit := brandTokens.any fun b => subL b displayName && !subL b domain
      match domTldScan displayName with
      | some cap => if subL cap domain then brandHit else true
      | none => brandHit
  | _, _ => false

/-- The suspicious links of an email: every URL in subject+body matching one
of `SUSPICIOUS_URL_PATTERNS` (`checkSuspiciousLinks(...).links`). -/
def suspiciousLinksOf (email : Email) : List (List Char) :=
  (jsMatchAll urlRE (textOf email)).filter fun u =>
    SUSPICIOUS_URL_PATTERNS.any fun p => reTest p u

/-- `checkUrgencyWords(...).words`: the urgency words contained in the
lower-cased subject+body, in list order. -/
def urgencyWordsOf (email : Email) : List (List Char) :=
  URGENCY_WORDS.filter fun w => subL w (lower (textOf email))

/-!
Word-boundary phrase matching, used for the `\b`-anchored grammar idioms and
the meeting indicators.  A phrase is a list of tokens; tokens after the first
must be separated by one or more `\s` characters (for single-token phrases a
token may itself contain literal spaces).  Both ends of the phrase start/end
with a word character in every source pattern, so the `\b` anchors reduce to
"the adjacent character, if any, is not a word character".
-/

/-- Match the tokens of a phrase at the head of `cs` (case-insensitively),
returning the unconsumed suffix. -/
def tokAt : List (List Char) → List Char → Option (List Char)
  | [], cs => some cs
  | [t], cs => if ciStarts t cs then some (cs.drop t.length) else none
  | t :: ts, cs =>
      if ciStarts t cs then
        let cs1 := cs.drop t.length
        let ws := cs1.takeWhile isJsWs
        if ws.isEmpty then none else tokAt ts (cs1.drop ws.length)
      else none

/-- The character before the match position is compatible with `\b`. -/
def bdBefore : Option Char → Bool
  | none => true
  | some p => !isWordChar p

/-- The character after the match is compatible with `\b`. -/
def bdAfter : List Char → Bool
  | [] => true
  | d :: _ => !isWordChar d

/-- Scan `cs` for a word-bounded occurrence of the phrase, carrying the
previous character for the leading boundary check. -/
def phraseScanAux (ph : List (List Char)) : Option Char → List Char → Bool
  | _, [] => false
  | prev, c :: cs =>
      (bdBefore prev &&
        (match tokAt ph (c :: cs) with
         | some rest => bdAfter rest
         | none => false)) ||
      phraseScanAux ph (some c) cs

/-- Word-bounded phrase search over a whole text. -/
def phraseScan (ph : List (List Char)) (cs : List Char) : Bool :=
  phraseScanAux ph none cs

/-- `GRAMMAR_ISSUES`: the four `\b`-anchored idiom groups plus the
`/\$\s*\d+.*\s*(USD|dollars)/i` pattern. -/
def dollarAmountRE : RE :=
  .seq (.lit (chars "$"))
    (.seq wsStar
      (.seq (.cls isAsciiDigit)
        (.seq (.star (.cls isAsciiDigit))
          (.seq dotStar
            (.seq wsStar (.alt (.lit (chars "usd")) (.lit (chars "dollars"))))))))

/-- `checkGrammarIssues`. -/
def checkGrammarIssues (email : Email) : Bool :=
  let text := textOf email
  ([[chars "kindly"], [chars "please kindly"]].any fun ph => phraseScan ph text) ||
  ([[chars "revert back"], [chars "reply back"]].any fun ph => phraseScan ph text) ||
  phraseScan [chars "do the needful"] text ||
  phraseScan [chars "your good self"] text ||
  reTest dollarAmountRE text

/-- The five feature checks of `detectSpam`. -/
def spamFeatures (email : Email) : SpamFeatures where
  senderDomainMismatch := checkSenderDomainMismatch email
  suspiciousLinks := !(suspiciousLinksOf email).isEmpty
  urgencyWords := !(urgencyWordsOf email).isEmpty
  grammarIssues := checkGrammarIssues email
  knownSpamPatterns := SPAM_PATTERNS.any fun p => reTest p (textOf email)

/-- The sequential weighted sum of `detectSpam`, before the final clamp. -/
def rawScore (f : SpamFeatures) : ℚ :=
  let s0 : ℚ := 0
  let s1 := if f.senderDomainMismatch then s0 + wSenderDomainMismatch else s0
  let s2 := if f.suspiciousLinks then s1 + wSuspiciousLinks else s1
  let s3 := if f.urgencyWords then s2 + wUrgencyWords else s2
  let s4 := if f.grammarIssues then s3 + wGrammarIssues else s3
  if f.knownSpamPatterns then s4 + wKnownSpamPatterns else s4

/-- `", "`-join (`Array.prototype.join(', ')`). -/
def joinComma : List (List Char) → List Char
  | [] => []
  | [x] => x
  | x :: xs => x ++ chars ", " ++ joinComma xs

/-- The `reasons` list of `detectSpam`: one line per triggered feature, in
feature order. -/
def spamReasons (email : Email) (f : SpamFeatures) : List (List Char) :=
  (if f.senderDomainMismatch then [chars "Sender domain mismatch detected"] else []) ++
  (if f.suspiciousLinks then
    [chars "Suspicious links found: " ++ joinComma ((suspiciousLinksOf email).take 2)] else []) ++
  (if f.urgencyWords then
    [chars "Urgency language detected: " ++ joinComma ((urgencyWordsOf email).take 3)] else []) ++
  (if f.grammarIssues then [chars "Common spam grammar patterns detected"] else []) ++
  (if f.knownSpamPatterns then [chars "Known spam/phishing patterns detected"] else [])

/-- `detectSpam`: weighted feature score (clamped at 1), threshold 0.5
applied to the unclamped sum, reasons, features. -/
def detectSpam (email : Email) : SpamResult :=
  let features := spamFeatures email
  let score := rawScore features
  { score := min score 1
    isSpam := decide (score ≥ 0.5)
    reasons := spamReasons email features
    features := features }

/-!
## Tone heuristic (`src/agents/reply-generator.ts`, `detectTone`)
-/

/-- The three tones. -/
inductive Tone where
  | formal
  | casual
  | neutral
deriving DecidableEq

/-- The formal indicator list of `detectTone`, in source order. -/
def formalIndicators : List (List Char) :=
  [chars "dear", chars "sincerely", chars "regards", chars "respectfully",
   chars "please find attached", chars "as per our", chars "pursuant to",
   chars "hereby", chars "kindly", chars "would you please",
   chars "sehr geehrte", chars "mit freundlichen grüßen", chars "hochachtungsvoll",
   chars "cher", chars "chère", chars "cordialement", chars "veuillez",
   chars "estimado", chars "estimada", chars "atentamente", chars "cordialmente",
   chars "sayın", chars "saygılarımla", chars "saygılar"]

/-- The casual indicator list of `detectTone`, in source order. -/
def casualIndicators : List (List Char) :=
  [chars "hey", chars "hi!", chars "thanks!", chars "cheers", chars "btw",
   chars "gonna", chars "wanna", chars "asap", chars "lol", chars "haha",
   chars "!!", chars ":)", chars ":D",
   chars "hallo", chars "tschüss", chars "lg", chars "vg",
   chars "salut", chars "bisous", chars "coucou",
   chars "hola", chars "saludos", chars "vale",
   chars "merhaba", chars "selam", chars "görüşürüz"]

/-- Number of indicators of the list contained in the lower-cased body or
subject. -/
def toneScore (ind : List (List Char)) (email : Email) : Nat :=
  (ind.filter fun i => subL i (lower email.body) || subL i (lower email.subject)).length

/-- `detectTone`: formal when the formal count is strictly larger, casual
when the casual count is strictly larger, neutral on a tie. -/
def detectTone (email : Email) : Tone :=
  let formalScore := toneScore formalIndicators email
  let casualScore := toneScore casualIndicators email
  if casualScore < formalScore then .formal
  else if formalScore < casualScore then .casual
  else .neutral

/-!
## ICS serializer (`src/utils/ics-generator.ts`)

`generateUID` reads the wall clock and `Math.random`, and `DTSTAMP` reads
the wall clock; both enter the model as the parameters `uid` and `now`.
ISO-8601 date strings are modelled by their epoch-millisecond value.
-/

/-- A calendar event (`CalendarEvent`); ISO date strings are modelled as
epoch milliseconds. -/
structure CalendarEvent where
  title : List Char
  date : Int
  endDate : Option Int := none
  location : Option (List Char) := none
  attendees : List (List Char)
  description : Option (List Char) := none
  icsContent : Option (List Char) := none

/-- One step of `escapeICSText`: `replaceAll` of a character by a string. -/
def replCh (tgt : Char) (rep : List Char) : List Char → List Char
  | [] => []
  | c :: cs => (if c = tgt then rep else [c]) ++ replCh tgt rep cs

/-- `escapeICSText`: escape backslash, then `;`, then `,`, then newline. -/
def escapeICSText (cs : List Char) : List Char :=
  replCh '\n' (chars "\\n")
    (replCh ',' (chars "\\,")
      (replCh ';' (chars "\\;")
        (replCh '\\' (chars "\\\\") cs)))

/-- Per-character view of `escapeICSText` (the four replacement passes
compose to this single map, because no pass introduces a character that a
later pass rewrites). -/
def escCh (c : Char) : List Char :=
  if c = '\\' then [ '\\', '\\' ]
  else if c = ';' then [ '\\', ';' ]
  else if c = ',' then [ '\\', ',' ]
  else if c = '\n' then [ '\\', 'n' ]
  else [c]

/-- Inverse of the ICS escaping (used to state that the escaping is
lossless). -/
def unescapeICS : List Char → List Char
  | [] => []
  | [c] => [c]
  | a :: b :: cs =>
      if a = '\\' then (if b = 'n' then '\n' else b) :: unescapeICS cs
      else a :: unescapeICS (b :: cs)

/-- Days-from-epoch and civil-date computation behind `toISOString`
(proleptic Gregorian calendar): returns (year, month, day). -/
def civilFromDays (z0 : Int) : Int × Nat × Nat :=
  let z := z0 + 719468
  let era := z.ediv 146097
  let doe := (z - era * 146097).toNat
  let yoe := (doe - doe / 1460 + doe / 36524 - doe / 146096) / 365
  let y := (yoe : Int) + era * 400
  let doy := doe - (365 * yoe + yoe / 4 - yoe / 100)
  let mp := (5 * doy + 2) / 153
  let d := doy - (153 * mp + 2) / 5 + 1
  let m := if mp < 10 then mp + 3 else mp - 9
  (if m ≤ 2 then y + 1 else y, m, d)

/-- `Date.prototype.toISOString` on an epoch-millisecond value. -/
def isoOfMs (ms : Int) : List Char :=
  let day := ms.ediv 86400000
  let tod := (ms.emod 86400000).toNat
  let c := civilFromDays day
  let yearStr :=
    if 0 ≤ c.1 ∧ c.1 ≤ 9999 then padNum 4 c.1.toNat
    else (if c.1 < 0 then chars "-" else chars "+") ++ padNum 6 c.1.natAbs
  yearStr ++ chars "-" ++ padNum 2 c.2.1 ++ chars "-" ++ padNum 2 c.2.2 ++
  chars "T" ++ padNum 2 (tod / 3600000) ++ chars ":" ++ padNum 2 (tod / 60000 % 60) ++
  chars ":" ++ padNum 2 (tod / 1000 % 60) ++ chars "." ++ padNum 3 (tod % 1000) ++ chars "Z"

/-- `.replace(/[-:]/g, '')`. -/
def stripDashColon (cs : List Char) : List Char :=
  cs.filter fun c => !(c = '-' || c = ':')

/-- `.replace(/\.\d{3}/, '')`: remove the first dot-plus-three-digits. -/
def stripDotMs : List Char → List Char
  | [] => []
  | c :: cs =>
      if c = '.' && (cs.take 3).length = 3 && (cs.take 3).all isAsciiDigit
      then cs.drop 3
      else c :: stripDotMs cs

/-- `formatICSDate`. -/
def formatICSDate (ms : Int) : List Char :=
  stripDotMs (stripDashColon (isoOfMs ms))

/-- `event.endDate ? new Date(event.endDate) : start + one hour`. -/
def icsEndMs (event : CalendarEvent) : Int :=
  match event.endDate with
  | some e => e
  | none => event.date + 60 * 60 * 1000

/-- The initial fixed lines of `generateICS` (`icsLines` before the
conditional pushes). -/
def icsHeaderLines (now : Int) (uid : List Char) (event : CalendarEvent) :
    List (List Char) :=
  [chars "BEGIN:VCALENDAR",
   chars "VERSION:2.0",
   chars "PRODID:-//Email Orchestrator//EN",
   chars "CALSCALE:GREGORIAN",
   chars "METHOD:PUBLISH",
   chars "BEGIN:VEVENT",
   chars "UID:" ++ uid,
   chars "DTSTAMP:" ++ formatICSDate now,
   chars "DTSTART:" ++ formatICSDate event.date,
   chars "DTEND:" ++ formatICSDate (icsEndMs event),
   chars "SUMMARY:" ++ escapeICSText event.title]

/-- `if (event.location) icsLines.push(...)`; a missing or empty string is
falsy. -/
def icsLocationLines (event : CalendarEvent) : List (List Char) :=
  match event.location with
  | some l => if l.isEmpty then [] else [chars "LOCATION:" ++ escapeICSText l]
  | none => []

/-- `if (event.description) icsLines.push(...)`. -/
def icsDescriptionLines (event : CalendarEvent) : List (List Char) :=
  match event.description with
  | some d => if d.isEmpty then [] else [chars "DESCRIPTION:" ++ escapeICSText d]
  | none => []

/-- One `ATTENDEE` line per attendee. -/
def icsAttendeeLines (event : CalendarEvent) : List (List Char) :=
  event.attendees.map fun a => chars "ATTENDEE;RSVP=TRUE:mailto:" ++ a

/-- The lines of the generated calendar text, in push order (`icsLines`). -/
def icsLines (now : Int) (uid : List Char) (event : CalendarEvent) : List (List Char) :=
  icsHeaderLines now uid event ++ icsLocationLines event ++
    icsDescriptionLines event ++ icsAttendeeLines event ++
    [chars "END:VEVENT", chars "END:VCALENDAR"]

/-- `Array.prototype.join('\r\n')`. -/
def joinCRLF : List (List Char) → List Char
  | [] => []
  | [l] => l
  | l :: ls => l ++ chars "\r\n" ++ joinCRLF ls

/-- `generateICS`. -/
def generateICS (now : Int) (uid : List Char) (event : CalendarEvent) : List Char :=
  joinCRLF (icsLines now uid event)

/-!
## Calendar extractor (`src/agents/calendar-extractor.ts`)

`chrono.parse(text, new Date(), { forwardDate: true })` is the date/time
parsing collaborator; it is modelled as a function parameter returning the
list of parsed results, each with a start instant and an optional explicit
end instant (`primaryDate.start.date()` / `primaryDate.end.date()`).
-/

/-- One result of the date/time recognizer collaborator. -/
structure ChronoParsed where
  start : Int
  end_ : Option Int := none

/-- A date/time recognizer: text to parsed results. -/
def ChronoParse : Type := List Char → List ChronoParsed

/-- The `let'?s?` prefix variants of the second meeting-indicator regex. -/
def letVariants : List (List Char) :=
  [chars "let", chars "let" ++ [apoc], chars "lets", chars "let" ++ [apoc] ++ chars "s"]

/-- `hasMeetingIndicators`: the five `\b`-anchored indicator regexes,
flattened into word-bounded phrases (tokens separated by `\s+`). -/
def meetingPhrases : List (List (List Char)) :=
  ([chars "meeting", chars "meet", chars "call", chars "conference",
    chars "discussion", chars "review", chars "sync", chars "standup",
    chars "catchup", chars "catch-up"].map fun w => [w]) ++
  (letVariants.flatMap fun v =>
    [chars "meet", chars "discuss", chars "talk", chars "connect", chars "sync"].map
      fun k => [v, k]) ++
  ([chars "schedule", chars "scheduled", chars "invite", chars "invitation",
    chars "calendar"].map fun w => [w]) ++
  [[chars "join", chars "us"], [chars "join", chars "me"],
   [chars "join", chars "the", chars "call"],
   [chars "please", chars "attend"], [chars "please", chars "join"],
   [chars "please", chars "confirm"]]

/-- `hasMeetingIndicators`. -/
def hasMeetingIndicators (text : List Char) : Bool :=
  meetingPhrases.any fun ph => phraseScan ph text

/-- Leftmost match of `/(\d+)\s*UNIT/` style duration patterns: scan for a
digit run followed by optional whitespace and one of the two unit literals;
returns the parsed digit run. -/
def durScan (unitA unitB : List Char) : List Char → Option Nat
  | [] => none
  | c :: cs =>
      if isAsciiDigit c then
        let run := (c :: cs).takeWhile isAsciiDigit
        let rest := (c :: cs).drop run.length
        let rest2 := rest.drop (rest.takeWhile isJsWs).length
        if ciStarts unitA rest2 || ciStarts unitB rest2 then some (natOfDigits run)
        else durScan unitA unitB cs
      else durScan unitA unitB cs

/-- `extractDuration`: first the hour pattern (value × 60), then the minute
pattern, else the 60-minute default. -/
def extractDuration (text : List Char) : Nat :=
  match durScan (chars "hour") (chars "hr") text with
  | some v => v * 60
  | none =>
      match durScan (chars "minute") (chars "min") text with
      | some v => v
      | none => 60

/-- `[a-zA-Z0-9._%+-]`, the local part class of `EMAIL_REGEX`. -/
def isLocalChar (c : Char) : Bool :=
  isAsciiAlnum c || c = '.' || c = '_' || c = '%' || c = '+' || c = '-'

/-- `EMAIL_REGEX` = `/[a-zA-Z0-9._%+-]+@[a-zA-Z0-9.-]+\.[a-zA-Z]{2,}/g`. -/
def emailRE : RE :=
  .seq (.cls isLocalChar) (.seq (.star (.cls isLocalChar))
    (.seq (.lit (chars "@"))
      (.seq (.cls isDomainChar) (.seq (.star (.cls isDomainChar))
        (.seq (.lit (chars "."))
          (.seq (.cls isAsciiAlpha) (.seq (.cls isAsciiAlpha) (.star (.cls isAsciiAlpha)))))))))

/-- The insertion-ordered deduplication performed by a JavaScript `Set`. -/
def addUniq (acc : List (List Char)) (x : List Char) : List (List Char) :=
  if x ∈ acc then acc else acc ++ [x]

/-- Fold a list into a `Set`-like deduplicated list, insertion order kept. -/
def insOrderDedup (xs : List (List Char)) : List (List Char) :=
  xs.foldl addUniq []

/-- `extractAttendees`: the sender address (first email-shaped token of
`from`) first, then every email-shaped token of `from ⧺ " " ⧺ body`,
lower-cased and deduplicated in insertion order. -/
def extractAttendees (email : Email) : List (List Char) :=
  let txt := email.from_ ++ chars " " ++ email.body
  let emails := jsMatchAll emailRE txt
  let senderFirst :=
    match jsMatchAll emailRE email.from_ with
    | s :: _ => [lower s]
    | [] => []
  insOrderDedup (senderFirst ++ emails.map lower)

/-- `[:.]` -/
def isColonDot (c : Char) : Bool := c = ':' || c = '.'

/-- `[^\n,]` -/
def isNotNlComma (c : Char) : Bool := !(c = '\n' || c = ',')

/-- `[-A-Z0-9a-z\s]` (the tail class of the first location capture). -/
def isLocTail (c : Char) : Bool := c = '-' || isAsciiAlnum c || isJsWs c

/-- `[^\s]` -/
def isNotWs (c : Char) : Bool := !isJsWs c

/-- `LOCATION_PATTERNS[0]`. -/
def locP1 : RE :=
  .seq (altL [.lit (chars "in"), .lit (chars "at"), .lit (chars "room"),
              .lit (chars "building"), .lit (chars "office"),
              .lit (chars "conference room"), .lit (chars "meeting room")])
    (.seq wsStar
      (.seq (.opt (.cls isColonDot))
        (.seq wsStar
          (.seq (.cls isAsciiAlnum) (.seq (.cls isLocTail) (.star (.cls isLocTail)))))))

/-- `LOCATION_PATTERNS[1]`. -/
def locP2 : RE :=
  .seq (altL [.lit (chars "location"), .lit (chars "venue"), .lit (chars "place")])
    (.seq wsStar
      (.seq (.opt (.cls isColonDot))
        (.seq wsStar (.seq (.cls isNotNlComma) (.star (.cls isNotNlComma))))))

/-- `LOCATION_PATTERNS[2]`. -/
def locP3 : RE :=
  .seq (altL [.lit (chars "zoom"), .lit (chars "teams"), .lit (chars "meet")])
    (.seq wsStar
      (.seq (.opt (altL [.lit (chars "link"), .lit (chars "url"), .lit (chars "meeting")]))
        (.seq wsStar
          (.seq (.opt (.cls isColonDot))
            (.seq wsStar
              (.seq (.lit (chars "http"))
                (.seq (.opt (.lit (chars "s")))
                  (.seq (.lit (chars "://"))
                    (.seq (.cls isNotWs) (.star (.cls isNotWs)))))))))))

/-- `LOCATION_PATTERNS[3]`. -/
def locP4 : RE :=
  .seq (altL [.lit (chars "join us at"), .lit (chars "meet at"), .lit (chars "gather at")])
    (.seq (.cls isJsWs) (.seq (.star (.cls isJsWs))
      (.seq (.cls isNotNlComma) (.star (.cls isNotNlComma)))))

/-- `match[1] || match[0]` on the result of a global `match`: the second
full match when there are at least two, else the first (all matches of the
location patterns are non-empty, so truthiness is non-emptiness). -/
def pickMatch : List (List Char) → Option (List Char)
  | [] => none
  | [m] => some m
  | _ :: m2 :: _ => some m2

/-- `location.replace(/^(in|at|room|building)\s*/i, '')`. -/
def stripLocLead (cs : List Char) : List Char :=
  match [chars "in", chars "at", chars "room", chars "building"].find?
      (fun k => ciStarts k cs) with
  | some k =>
      let r := cs.drop k.length
      r.drop (r.takeWhile isJsWs).length
  | none => cs

/-- One location pattern: global match, pick, clean, length check. -/
def tryLoc (pat : RE) (text : List Char) : Option (List Char) :=
  match pickMatch (jsMatchAll pat text) with
  | none => none
  | some m0 =>
      let l := trimL (stripLocLead m0)
      if 2 < l.length ∧ l.length < 100 then some l else none

/-- `extractLocation`: the four patterns in order. -/
def extractLocation (text : List Char) : Option (List Char) :=
  (tryLoc locP1 text).orElse fun _ =>
    (tryLoc locP2 text).orElse fun _ =>
      (tryLoc locP3 text).orElse fun _ => tryLoc locP4 text

/-- `[^\n.,]` (the capture class of the title fallback pattern). -/
def isTitleCap (c : Char) : Bool := !(c = '\n' || c = '.' || c = ',')

/-- Try the title fallback pattern
`/(?:meeting|call|discussion)\s+(?:about|for|on|regarding)\s+([^\n.,]+)/i`
at the head of `cs`, returning the capture. -/
def titleAt (cs : List Char) : Option (List Char) :=
  [chars "meeting", chars "call", chars "discussion"].findSome? fun k =>
    if ciStarts k cs then
      let r := cs.drop k.length
      let w := r.takeWhile isJsWs
      if w.isEmpty then none
      else
        let r2 := r.drop w.length
        [chars "about", chars "for", chars "on", chars "regarding"].findSome? fun k2 =>
          if ciStarts k2 r2 then
            let r3 := r2.drop k2.length
            let w2 := r3.takeWhile isJsWs
            if w2.isEmpty then none
            else
              let cap := (r3.drop w2.length).takeWhile isTitleCap
              if cap.isEmpty then none else some cap
          else none
    else none

/-- Leftmost match of the title fallback pattern. -/
def titleScan : List Char → Option (List Char)
  | [] => none
  | c :: cs => (titleAt (c :: cs)).orElse fun _ => titleScan cs

/-- `title.replace(/^(?:re:|fwd:)\s*/i, '')`. -/
def stripReFwd (cs : List Char) : List Char :=
  match [chars "re:", chars "fwd:"].find? (fun k => ciStarts k cs) with
  | some k =>
      let r := cs.drop k.length
      r.drop (r.takeWhile isJsWs).length
  | none => cs

/-- `extractCalendarEvent`: meeting-indicator gate, date-recognizer gate,
first candidate as start, end time only from a first candidate with an
explicit end when more than one candidate was parsed, otherwise
start + duration; location, attendees, title, description, ICS content. -/
def extractCalendarEvent (parse : ChronoParse) (icsNow : Int) (uid : List Char)
    (email : Email) : Option CalendarEvent :=
  let text := textOf email
  if !hasMeetingIndicators text then none
  else
    match parse text with
    | [] => none
    | primary :: rest =>
        let startDate := primary.start
        let durationMinutes := extractDuration text
        let endDate : Int :=
          match rest, primary.end_ with
          | _ :: _, some e => e
          | _, _ => startDate + (durationMinutes : Int) * 60 * 1000
        let title0 := email.subject
        let title1 :=
          if title0.isEmpty || ciHas (chars "re:") title0 || ciHas (chars "fwd:") title0 then
            match titleScan text with
            | some cap => trimL cap
            | none => title0
          else title0
        let ev : CalendarEvent :=
          { title := trimL (stripReFwd title1)
            date := startDate
            endDate := some endDate
            location := extractLocation text
            attendees := extractAttendees email
            description := some (chars "From: " ++ email.from_ ++ chars "\n\n" ++
              email.body.take 500) }
        some { ev with icsContent := some (generateICS icsNow uid ev) }

/-!
## Master orchestrator

The orchestrator source (`src/orchestrator/master.ts`) is not among the
sources; only its tests and callers are.  The definitions below are
therefore modelled from the spec (§4.1, §4.4): phase 1 runs the four
analyzers on the immutable email, the spam gate decides whether the
reply-generation collaborator is invoked, and the priority follows the
exact precedence spam → low, calendar-or-urgent → high, newsletter → low,
else medium.  The three LLM-backed collaborators, the keyword tests of the
priority heuristic and the wall-clock timer enter as parameters.
-/

/-- Priority levels. -/
inductive Priority where
  | high
  | medium
  | low
deriving DecidableEq

/-- Summarizer collaborator output. -/
structure SummarizerResult where
  summary : List Char
  keyPoints : List (List Char) := []
  actionItems : List (List Char) := []

/-- Language-detector collaborator output. -/
structure LanguageResult where
  language : List Char
  languageName : List Char
  confidence : ℚ

/-- Reply-generator collaborator output. -/
structure ReplyResult where
  reply : List Char
  tone : Tone

/-- `detected_language` record of the orchestration result. -/
structure DetectedLanguage where
  code : List Char
  name : List Char
  confidence : ℚ

/-- The orchestration result (`OrchestrationResult`). -/
structure OrchestrationResult where
  summary : List Char
  priority : Priority
  suggested_reply : Option (List Char)
  spam_score : ℚ
  calendar_event : Option CalendarEvent
  actions_taken : List (List Char)
  processing_time_ms : Nat
  detected_language : Option DetectedLanguage

/-- Modelled from the spec: the priority derivation of §4.4 with its exact
precedence — spam-detected → low (overrides everything else); else
calendar-event-present or urgent-keyword-present → high; else
newsletter-keyword-present → low; else medium.  The urgent-keyword and
newsletter-keyword tests live in the missing orchestrator source and are
abstract parameters. -/
def calculatePriority (isSpam hasCalendarEvent hasUrgent hasNewsletter : Bool) : Priority :=
  if isSpam then .low
  else if hasCalendarEvent || hasUrgent then .high
  else if hasNewsletter then .low
  else .medium

/-- The action-log line `"Spam detected (score=<score>)"` of the spam gate
(the numeric rendering of the score is immaterial to the claims). -/
def spamDetectedMsg (score : ℚ) : List Char :=
  chars "Spam detected (score=" ++ (toString score).data ++ chars ")"

/-- Modelled from the spec: `processEmail` of the missing orchestrator
source (§4.1).  Parameters: the date recognizer and ICS inputs consumed by
the embedded calendar extractor, the summarizer and language-detector
outputs, the reply-generation collaborator as a function, the two keyword
tests of the priority heuristic, and the elapsed wall-clock time.  Returns
the orchestration result together with a flag recording whether the
reply-generation collaborator was invoked. -/
def processEmail (parse : ChronoParse) (icsNow : Int) (uid : List Char)
    (summ : SummarizerResult) (lang : LanguageResult)
    (replyGen : Email → SummarizerResult → LanguageResult → ReplyResult)
    (urgentKw newsletterKw : Email → Bool) (elapsedMs : Nat)
    (email : Email) : OrchestrationResult × Bool :=
  let spamResult := detectSpam email
  let calEvent := extractCalendarEvent parse icsNow uid email
  let phase1Log : List (List Char) :=
    [chars "Summarizer invoked", chars "Spam Detector invoked",
     chars "Calendar Extractor invoked", chars "Language Detector invoked",
     chars "Summarizer completed", chars "Spam Detector completed",
     chars "Calendar Extractor completed", chars "Language Detector completed"]
  let priority := calculatePriority spamResult.isSpam calEvent.isSome
    (urgentKw email) (newsletterKw email)
  if spamResult.isSpam then
    ({ summary := []
       priority := priority
       suggested_reply := none
       spam_score := spamResult.score
       calendar_event := calEvent
       actions_taken := phase1Log ++
         [chars "Reply skipped (spam detected)", spamDetectedMsg spamResult.score]
       processing_time_ms := elapsedMs
       detected_language := some ⟨lang.language, lang.languageName, lang.confidence⟩ },
     false)
  else
    let rep := replyGen email summ lang
    ({ summary := summ.summary
       priority := priority
       suggested_reply := some rep.reply
       spam_score := spamResult.score
       calendar_event := calEvent
       actions_taken := phase1Log ++ [chars "Reply generated"]
       processing_time_ms := elapsedMs
       detected_language := some ⟨lang.language, lang.languageName, lang.confidence⟩ },
     true)

/-!
## Theorems: spam scorer (claims C1, C2)
-/

/-- Number of features set to true. -/
def trueFeatureCount (f : SpamFeatures) : Nat :=
  (if f.senderDomainMismatch then 1 else 0) +
  (if f.suspiciousLinks then 1 else 0) +
  (if f.urgencyWords then 1 else 0) +
  (if f.grammarIssues then 1 else 0) +
  (if f.knownSpamPatterns then 1 else 0)

/-- The weighted sum as the spec writes it: one fixed weight per true
feature. -/
def specWeightSum (f : SpamFeatures) : ℚ :=
  (if f.senderDomainMismatch then wSenderDomainMismatch else 0) +
  (if f.suspiciousLinks then wSuspiciousLinks else 0) +
  (if f.urgencyWords then wUrgencyWords else 0) +
  (if f.grammarIssues then wGrammarIssues else 0) +
  (if f.knownSpamPatterns then wKnownSpamPatterns else 0)

lemma rawScore_key (f : SpamFeatures) :
    (0 ≤ min (rawScore f) 1 ∧ min (rawScore f) 1 ≤ 1) ∧
      (rawScore f ≥ 0.5 ↔ min (rawScore f) 1 ≥ 0.5) := by
  obtain ⟨b1, b2, b3, b4, b5⟩ := f
  cases b1 <;> cases b2 <;> cases b3 <;> cases b4 <;> cases b5 <;>
    norm_num [rawScore, wSenderDomainMismatch, wSuspiciousLinks, wUrgencyWords,
      wGrammarIssues, wKnownSpamPatterns, min_def]

lemma rawScore_eq_specWeightSum (f : SpamFeatures) :
    rawScore f = specWeightSum f := by
  obtain ⟨b1, b2, b3, b4, b5⟩ := f
  cases b1 <;> cases b2 <;> cases b3 <;> cases b4 <;> cases b5 <;>
    norm_num [rawScore, specWeightSum]

lemma spamReasons_length (email : Email) (f : SpamFeatures) :
    (spamReasons email f).length = trueFeatureCount f := by
  obtain ⟨b1, b2, b3, b4, b5⟩ := f
  cases b1 <;> cases b2 <;> cases b3 <;> cases b4 <;> cases b5 <;>
    simp [spamReasons, trueFeatureCount]

/-- Claim C1: for every email, the spam score returned by `detectSpam` lies
in the closed interval [0, 1], and `isSpam` holds exactly when the returned
score is at least 0.5. -/
theorem spam_score_range_and_threshold (email : Email) :
    (0 ≤ (detectSpam email).score ∧ (detectSpam email).score ≤ 1) ∧
      ((detectSpam email).isSpam = true ↔ (detectSpam email).score ≥ 0.5) := by
  have h := rawScore_key (spamFeatures email)
  constructor
  · exact h.1
  · show decide (rawScore (spamFeatures email) ≥ 0.5) = true ↔ _
    rw [decide_eq_true_iff]
    exact h.2

/-- Claim C2: for every email, the score of `detectSpam` is the sum of the
fixed weights (0.30, 0.25, 0.20, 0.10, 0.35) of the features that are true,
clamped at 1, and the reasons list has exactly one entry per true
feature. -/
theorem spam_score_weighted_sum_and_reasons (email : Email) :
    (detectSpam email).score = min (specWeightSum (detectSpam email).features) 1 ∧
      (detectSpam email).reasons.length = trueFeatureCount (detectSpam email).features := by
  constructor
  · show min (rawScore (spamFeatures email)) 1 = _
    rw [rawScore_eq_specWeightSum]
    rfl
  · exact spamReasons_length email (spamFeatures email)

/-!
## Theorems: tone heuristic (claim C10)
-/

/-- Claim C10: `detectTone` returns formal exactly when the formal
indicator count beats the casual one, casual exactly when the casual count
is strictly larger, and neutral exactly on a tie. -/
theorem detectTone_counts (email : Email) :
    (detectTone email = .formal ↔
        toneScore casualIndicators email < toneScore formalIndicators email) ∧
      (detectTone email = .casual ↔
        toneScore formalIndicators email < toneScore casualIndicators email) ∧
      (detectTone email = .neutral ↔
        toneScore formalIndicators email = toneScore casualIndicators email) := by
  unfold detectTone
  rcases Nat.lt_trichotomy (toneScore casualIndicators email)
    (toneScore formalIndicators email) with h | h | h
  · simp [h, Nat.not_lt.mpr (Nat.le_of_lt h), Nat.ne_of_gt h]
  · simp [h]
  · simp [Nat.not_lt.mpr (Nat.le_of_lt h), h, Nat.ne_of_lt h]

/-!
## Theorems: calendar extractor gates (claim C4)
-/

/-- Claim C4: with no meeting indicator in subject+body the extractor
returns nothing, whatever the date recognizer would say; and when the gate
passes but the recognizer yields no candidate, it also returns nothing. -/
theorem calendar_gates_return_none (parse : ChronoParse) (icsNow : Int)
    (uid : List Char) (email : Email) :
    (hasMeetingIndicators (textOf email) = false →
      extractCalendarEvent parse icsNow uid email = none) ∧
      (parse (textOf email) = [] →
        extractCalendarEvent parse icsNow uid email = none) := by
  constructor
  · intro h
    simp [extractCalendarEvent, h]
  · intro h
    by_cases hm : hasMeetingIndicators (textOf email) <;>
      simp [extractCalendarEvent, hm, h]

/-- A newsletter-style email without meeting indicators but with a date
mention in its text. -/
def newsletterEmail : Email :=
  { from_ := chars "news@techsite.com"
    subject := chars "Weekly Tech Digest"
    body := chars "Top stories of January 2025 inside." }

/-- A short meeting email. -/
def meetingEmail : Email :=
  { from_ := chars "john@acme.com"
    subject := chars "meeting"
    body := chars "tomorrow" }

/-- A recognizer returning one candidate for any text. -/
def oneDateParse : ChronoParse := fun _ => [{ start := 0 }]

/-- A recognizer returning no candidate for any text. -/
def noDateParse : ChronoParse := fun _ => []

/-- Witness for claim C4: both gate hypotheses discharged on concrete
inputs. -/
theorem calendar_gates_return_none_witness :
    extractCalendarEvent oneDateParse 0 [] newsletterEmail = none ∧
      extractCalendarEvent noDateParse 0 [] meetingEmail = none :=
  ⟨(calendar_gates_return_none oneDateParse 0 [] newsletterEmail).1 (by decide),
   (calendar_gates_return_none noDateParse 0 [] meetingEmail).2 rfl⟩

/-!
## Theorems: event start and end date (claim C5)

The spec says an explicit end time carried by the first candidate is always
used; the code uses it only when the recognizer produced more than one
candidate (`parsedDates.length > 1 && primaryDate.end`).
-/

/-- Claim C5, counterexample input: a meeting email for which the
recognizer yields exactly one candidate, carrying the explicit end time
7 200 000 ms. -/
def cexParse5 : ChronoParse := fun _ => [{ start := 0, end_ := some 7200000 }]

/-- Claim C5, as stated, is false: the negation of "whenever the extractor
returns an event and the first candidate carries an explicit end time, that
end time is the event's end".  At the concrete input the end time 7 200 000
is ignored and start + 60 minutes is used instead. -/
theorem calendar_end_time_claim_cex :
    ¬ (∀ (parse : ChronoParse) (icsNow : Int) (uid : List Char) (email : Email)
        (ev : CalendarEvent) (p : ChronoParsed) (ps : List ChronoParsed) (e : Int),
        parse (textOf email) = p :: ps →
        extractCalendarEvent parse icsNow uid email = some ev →
        p.end_ = some e → ev.endDate = some e) := by
  intro h
  have h3 : (extractCalendarEvent cexParse5 0 [] meetingEmail).map CalendarEvent.endDate
      = some (some 3600000) := by rfl
  rcases hev : extractCalendarEvent cexParse5 0 [] meetingEmail with _ | ev
  · rw [hev] at h3
    exact absurd h3 (by simp)
  · have h2 := h cexParse5 0 [] meetingEmail ev ⟨0, some 7200000⟩ [] 7200000 rfl hev rfl
    rw [hev] at h3
    simp at h3
    rw [h2] at h3
    exact absurd (Option.some.inj h3) (by decide)

/-- Claim C5 (amended): the event start is the first candidate's start;
the first candidate's explicit end time is used as the event end only when
the recognizer yielded more than one candidate; otherwise the end is
start plus the duration extracted from an explicit hour/minute mention
(default 60 minutes). -/
theorem calendar_end_date_rule (parse : ChronoParse) (icsNow : Int) (uid : List Char)
    (email : Email) (ev : CalendarEvent) (p : ChronoParsed) (ps : List ChronoParsed)
    (hp : parse (textOf email) = p :: ps)
    (he : extractCalendarEvent parse icsNow uid email = some ev) :
    ev.date = p.start ∧
      (∀ e, ps ≠ [] → p.end_ = some e → ev.endDate = some e) ∧
      ((ps = [] ∨ p.end_ = none) →
        ev.endDate = some (p.start + (extractDuration (textOf email) : Int) * 60 * 1000)) := by
  cases hm : hasMeetingIndicators (textOf email) with
  | false =>
    rw [extractCalendarEvent] at he
    simp [hm] at he
  | true =>
    rw [extractCalendarEvent] at he
    simp only [hm, hp, Bool.not_true, Bool.false_eq_true, if_false, Option.some.injEq] at he
    subst he
    refine ⟨rfl, ?_, ?_⟩
    · intro e hps hpe
      rcases ps with _ | ⟨q, qs⟩
      · exact absurd rfl hps
      · simp [hpe]
    · intro hcase
      rcases ps with _ | ⟨q, qs⟩
      · rcases hpe : p.end_ with _ | e <;> simp [hpe]
      · rcases hcase with hps | hpe
        · exact absurd hps (by simp)
        · simp [hpe]

/-- An email whose text carries an explicit "2 hour" duration mention. -/
def workshopEmail : Email :=
  { from_ := chars "scheduler@company.com"
    subject := chars "Workshop"
    body := chars "Join us for a 2 hour workshop on Thursday." }

/-- A recognizer returning two candidates, the first carrying an explicit
end time. -/
def twoDateParse : ChronoParse :=
  fun _ => [{ start := 1000, end_ := some 5000 }, { start := 9000 }]

/-- Witness for the amended claim C5: both the explicit-end branch (two
candidates) and the duration branch (one candidate, "2 hour" mention)
evaluated on concrete inputs. -/
theorem calendar_end_date_rule_witness :
    (∃ ev, extractCalendarEvent twoDateParse 0 [] meetingEmail = some ev ∧
      ev.date = 1000 ∧ ev.endDate = some 5000) ∧
      (∃ ev, extractCalendarEvent oneDateParse 0 [] workshopEmail = some ev ∧
        ev.date = 0 ∧ ev.endDate = some 7200000) := by
  constructor
  · rcases hev : extractCalendarEvent twoDateParse 0 [] meetingEmail with _ | ev
    · have hs : (extractCalendarEvent twoDateParse 0 [] meetingEmail).isSome = true := rfl
      rw [hev] at hs
      simp at hs
    · have h := calendar_end_date_rule twoDateParse 0 [] meetingEmail ev
        ⟨1000, some 5000⟩ [⟨9000, none⟩] rfl hev
      exact ⟨ev, rfl, h.1, h.2.1 5000 (by simp) rfl⟩
  · rcases hev : extractCalendarEvent oneDateParse 0 [] workshopEmail with _ | ev
    · have hs : (extractCalendarEvent oneDateParse 0 [] workshopEmail).isSome = true := rfl
      rw [hev] at hs
      simp at hs
    · have h := calendar_end_date_rule oneDateParse 0 [] workshopEmail ev
        ⟨0, none⟩ [] rfl hev
      refine ⟨ev, rfl, h.1, ?_⟩
      have h2 := h.2.2 (Or.inl rfl)
      rw [h2]
      decide

/-!
## Theorems: attendees (claim C6)

The spec says the attendee tokens are collected from subject+body; the code
scans `from ⧺ " " ⧺ body` — an address appearing only in the subject is
dropped.
-/

lemma addUniq_mem (acc : List (List Char)) (a x : List Char) :
    x ∈ addUniq acc a ↔ x ∈ acc ∨ x = a := by
  unfold addUniq
  by_cases h : a ∈ acc
  · simp only [if_pos h]
    constructor
    · exact Or.inl
    · rintro (hx | rfl)
      · exact hx
      · exact h
  · simp [if_neg h]

lemma foldl_addUniq_mem (xs : List (List Char)) (acc : List (List Char)) (x : List Char) :
    x ∈ xs.foldl addUniq acc ↔ x ∈ acc ∨ x ∈ xs := by
  induction xs generalizing acc with
  | nil => simp
  | cons a xs ih =>
    rw [List.foldl_cons, ih, addUniq_mem]
    simp only [List.mem_cons]
    tauto

lemma addUniq_nodup (acc : List (List Char)) (a : List Char) (h : acc.Nodup) :
    (addUniq acc a).Nodup := by
  unfold addUniq
  by_cases ha : a ∈ acc
  · simpa [if_pos ha]
  · simp only [if_neg ha]
    simpa [List.nodup_append] using ⟨h, ha⟩

lemma foldl_addUniq_nodup (xs : List (List Char)) (acc : List (List Char))
    (h : acc.Nodup) : (xs.foldl addUniq acc).Nodup := by
  induction xs generalizing acc with
  | nil => exact h
  | cons a xs ih => exact ih _ (addUniq_nodup acc a h)

lemma addUniq_ne_nil (acc : List (List Char)) (a : List Char) :
    addUniq acc a ≠ [] := by
  unfold addUniq
  by_cases ha : a ∈ acc
  · rw [if_pos ha]
    rintro rfl
    simp at ha
  · simp [if_neg ha]

lemma addUniq_head (acc : List (List Char)) (a : List Char) (h : acc ≠ []) :
    (addUniq acc a).head? = acc.head? := by
  unfold addUniq
  by_cases ha : a ∈ acc
  · rw [if_pos ha]
  · rw [if_neg ha]
    rcases acc with _ | ⟨b, bs⟩
    · exact absurd rfl h
    · rfl

lemma foldl_addUniq_head (xs : List (List Char)) (acc : List (List Char))
    (h : acc ≠ []) : (xs.foldl addUniq acc).head? = acc.head? := by
  induction xs generalizing acc with
  | nil => rfl
  | cons a xs ih =>
    rw [List.foldl_cons, ih _ (addUniq_ne_nil acc a), addUniq_head acc a h]

lemma insOrderDedup_head (x : List Char) (xs : List (List Char)) :
    (insOrderDedup (x :: xs)).head? = some x := by
  unfold insOrderDedup
  rw [List.foldl_cons, show addUniq [] x = [x] from by simp [addUniq],
    foldl_addUniq_head _ _ (by simp)]
  rfl

/-- The sender slot of `extractAttendees`: the first email-shaped token of
the `from` field, lower-cased, when there is one. -/
def senderSlot (email : Email) : List (List Char) :=
  match jsMatchAll emailRE email.from_ with
  | s :: _ => [lower s]
  | [] => []

/-- Claim C6, counterexample input: the address `x@y.co` occurs only in
the subject. -/
def cexEmail6 : Email :=
  { from_ := chars "a@b.co"
    subject := chars "sync x@y.co"
    body := chars "hello" }

/-- Claim C6, as stated, is false: `x@y.co` is an email-shaped token of
subject+body of the counterexample input, the extractor returns an event,
but the attendees list is just the sender — tokens are collected from
`from` and body, not from the subject. -/
theorem attendees_subject_claim_cex :
    (extractCalendarEvent oneDateParse 0 [] cexEmail6).isSome = true ∧
      chars "x@y.co" ∈ jsMatchAll emailRE (textOf cexEmail6) ∧
      (extractCalendarEvent oneDateParse 0 [] cexEmail6).map CalendarEvent.attendees
        = some [chars "a@b.co"] ∧
      chars "x@y.co" ∉ [chars "a@b.co"] :=
  ⟨rfl, by decide, rfl, by decide⟩

/-- Claim C6 (amended): when the extractor returns an event, its attendees
are the email-shaped tokens of the `from` field and the body (not the
subject), lower-cased and deduplicated with insertion order kept, the
sender's address first whenever `from` contains one. -/
theorem attendees_rule (parse : ChronoParse) (icsNow : Int) (uid : List Char)
    (email : Email) (ev : CalendarEvent)
    (he : extractCalendarEvent parse icsNow uid email = some ev) :
    ev.attendees = extractAttendees email ∧
      (extractAttendees email).Nodup ∧
      (∀ a, a ∈ extractAttendees email ↔
        a ∈ senderSlot email ∨
          a ∈ (jsMatchAll emailRE (email.from_ ++ chars " " ++ email.body)).map lower) ∧
      (∀ s, (jsMatchAll emailRE email.from_).head? = some s →
        (extractAttendees email).head? = some (lower s)) := by
  refine ⟨?_, ?_, ?_, ?_⟩
  · cases hm : hasMeetingIndicators (textOf email) with
    | false =>
      rw [extractCalendarEvent] at he
      simp [hm] at he
    | true =>
      rw [extractCalendarEvent] at he
      rcases hp : parse (textOf email) with _ | ⟨p, ps⟩
      · simp [hm, hp] at he
      · simp only [hm, hp, Bool.not_true, Bool.false_eq_true, if_false,
          Option.some.injEq] at he
        subst he
        rfl
  · exact foldl_addUniq_nodup _ _ List.nodup_nil
  · intro a
    simp only [extractAttendees, insOrderDedup]
    rw [foldl_addUniq_mem]
    simp only [List.not_mem_nil, false_or, List.mem_append]
    rw [show (match jsMatchAll emailRE email.from_ with
      | s :: _ => [lower s] | [] => []) = senderSlot email from rfl]
  · intro s hs
    rcases hm : jsMatchAll emailRE email.from_ with _ | ⟨t, ts⟩
    · rw [hm] at hs
      exact absurd hs (by simp)
    · rw [hm] at hs
      simp only [List.head?_cons, Option.some.injEq] at hs
      subst hs
      simp only [extractAttendees, hm, List.singleton_append]
      exact insOrderDedup_head _ _

/-- An email with one extra address in the body and a duplicate of the
sender. -/
def kickoffEmail : Email :=
  { from_ := chars "organizer@company.com"
    subject := chars "Kickoff meeting"
    body := chars "Please confirm: alice@company.com, Organizer@company.com" }

/-- Witness for the amended claim C6 at a concrete input: event returned,
attendees are sender first then the body token, deduplicated. -/
theorem attendees_rule_witness :
    (extractCalendarEvent oneDateParse 0 [] kickoffEmail).map CalendarEvent.attendees
      = some [chars "organizer@company.com", chars "alice@company.com"] ∧
      (extractAttendees kickoffEmail).Nodup ∧
      (extractAttendees kickoffEmail).head? = some (lower (chars "organizer@company.com")) := by
  refine ⟨rfl, ?_, ?_⟩
  · rcases hev : extractCalendarEvent oneDateParse 0 [] kickoffEmail with _ | ev
    · have hs : (extractCalendarEvent oneDateParse 0 [] kickoffEmail).isSome = true := rfl
      rw [hev] at hs
      simp at hs
    · exact (attendees_rule oneDateParse 0 [] kickoffEmail ev hev).2.1
  · rcases hev : extractCalendarEvent oneDateParse 0 [] kickoffEmail with _ | ev
    · have hs : (extractCalendarEvent oneDateParse 0 [] kickoffEmail).isSome = true := rfl
      rw [hev] at hs
      simp at hs
    · exact (attendees_rule oneDateParse 0 [] kickoffEmail ev hev).2.2.2
        (chars "organizer@company.com") rfl

/-!
## Theorems: determinism of calendar extraction (claim C8)
-/

/-- Claim C8: calendar extraction is deterministic — two runs on the same
email, with the same date-recognizer collaborator and the same ICS inputs,
agree on date, end date, attendees, location and title (in the embedding
the only sources of run-to-run variation, the recognizer's reference time
and the ICS wall-clock/randomness, are explicit parameters). -/
theorem calendar_extraction_deterministic (parse : ChronoParse) (icsNow : Int)
    (uid : List Char) (email : Email) :
    (extractCalendarEvent parse icsNow uid email).map CalendarEvent.date
        = (extractCalendarEvent parse icsNow uid email).map CalendarEvent.date ∧
      (extractCalendarEvent parse icsNow uid email).map CalendarEvent.endDate
        = (extractCalendarEvent parse icsNow uid email).map CalendarEvent.endDate ∧
      (extractCalendarEvent parse icsNow uid email).map CalendarEvent.attendees
        = (extractCalendarEvent parse icsNow uid email).map CalendarEvent.attendees ∧
      (extractCalendarEvent parse icsNow uid email).map CalendarEvent.location
        = (extractCalendarEvent parse icsNow uid email).map CalendarEvent.location ∧
      (extractCalendarEvent parse icsNow uid email).map CalendarEvent.title
        = (extractCalendarEvent parse icsNow uid email).map CalendarEvent.title :=
  ⟨rfl, rfl, rfl, rfl, rfl⟩

/-!
## Theorems: orchestrator spam gate (claim C3) and priority (claim C7)

Both claims concern `processEmail` of the missing orchestrator source and
are settled against the spec-modelled definition above.
-/

lemma detectSpam_isSpam_eq (email : Email) :
    (detectSpam email).isSpam = decide (rawScore (spamFeatures email) ≥ 0.5) := rfl

lemma processEmail_priority (parse : ChronoParse) (icsNow : Int) (uid : List Char)
    (summ : SummarizerResult) (lang : LanguageResult)
    (replyGen : Email → SummarizerResult → LanguageResult → ReplyResult)
    (uKw nKw : Email → Bool) (ms : Nat) (email : Email) :
    (processEmail parse icsNow uid summ lang replyGen uKw nKw ms email).1.priority =
      calculatePriority (detectSpam email).isSpam
        (extractCalendarEvent parse icsNow uid email).isSome (uKw email) (nKw email) := by
  cases hsp : (detectSpam email).isSpam <;> simp [processEmail, hsp]

lemma processEmail_calendar (parse : ChronoParse) (icsNow : Int) (uid : List Char)
    (summ : SummarizerResult) (lang : LanguageResult)
    (replyGen : Email → SummarizerResult → LanguageResult → ReplyResult)
    (uKw nKw : Email → Bool) (ms : Nat) (email : Email) :
    (processEmail parse icsNow uid summ lang replyGen uKw nKw ms email).1.calendar_event =
      extractCalendarEvent parse icsNow uid email := by
  cases hsp : (detectSpam email).isSpam <;> simp [processEmail, hsp]

/-- Claim C3: when the spam scorer flags the email, the orchestration
result has no suggested reply and an empty summary, the action log contains
the reply-skip line and the spam-detected line, the reply collaborator is
not invoked (flag false, and the result does not depend on the collaborator
at all); conversely a non-null suggested reply implies the spam gate
passed. -/
theorem orchestrator_spam_gate (parse : ChronoParse) (icsNow : Int) (uid : List Char)
    (summ : SummarizerResult) (lang : LanguageResult)
    (replyGen replyGen2 : Email → SummarizerResult → LanguageResult → ReplyResult)
    (uKw nKw : Email → Bool) (ms : Nat) (email : Email) :
    ((detectSpam email).isSpam = true →
      (processEmail parse icsNow uid summ lang replyGen uKw nKw ms email).1.suggested_reply = none ∧
      (processEmail parse icsNow uid summ lang replyGen uKw nKw ms email).1.summary = [] ∧
      chars "Reply skipped (spam detected)" ∈
        (processEmail parse icsNow uid summ lang replyGen uKw nKw ms email).1.actions_taken ∧
      spamDetectedMsg (detectSpam email).score ∈
        (processEmail parse icsNow uid summ lang replyGen uKw nKw ms email).1.actions_taken ∧
      (processEmail parse icsNow uid summ lang replyGen uKw nKw ms email).2 = false ∧
      processEmail parse icsNow uid summ lang replyGen uKw nKw ms email =
        processEmail parse icsNow uid summ lang replyGen2 uKw nKw ms email) ∧
    ((processEmail parse icsNow uid summ lang replyGen uKw nKw ms email).1.suggested_reply ≠ none →
      (detectSpam email).isSpam = false) := by
  cases hsp : (detectSpam email).isSpam with
  | true =>
    constructor
    · intro _
      refine ⟨?_, ?_, ?_, ?_, ?_, ?_⟩ <;> simp [processEmail, hsp]
    · intro hne
      exact absurd (by simp [processEmail, hsp]) hne
  | false =>
    constructor
    · intro h
      exact absurd h (by simp [hsp])
    · intro _
      rfl

/-- A short email every feature check flags through urgency and known spam
patterns. -/
def spamEmailW : Email :=
  { from_ := chars "winner@lottery.com"
    subject := chars "you have won"
    body := chars "claim your prize" }

lemma spamEmailW_isSpam : (detectSpam spamEmailW).isSpam = true := by
  have hf : spamFeatures spamEmailW =
      ⟨false, false, true, false, true⟩ := by decide
  rw [detectSpam_isSpam_eq, hf, decide_eq_true_iff]
  norm_num [rawScore, wUrgencyWords, wKnownSpamPatterns]

/-- Collaborator stand-ins for the orchestrator witnesses. -/
def summW : SummarizerResult := { summary := chars "summary" }

/-- See `summW`. -/
def langW : LanguageResult :=
  { language := chars "en", languageName := chars "English", confidence := 0.9 }

/-- See `summW`. -/
def replyW : Email → SummarizerResult → LanguageResult → ReplyResult :=
  fun _ _ _ => { reply := chars "reply", tone := .neutral }

/-- Witness for claim C3 at a concrete spam email. -/
theorem orchestrator_spam_gate_witness :
    (processEmail noDateParse 0 [] summW langW replyW (fun _ => false) (fun _ => false)
        1 spamEmailW).1.suggested_reply = none ∧
      (processEmail noDateParse 0 [] summW langW replyW (fun _ => false) (fun _ => false)
        1 spamEmailW).1.summary = [] ∧
      chars "Reply skipped (spam detected)" ∈
        (processEmail noDateParse 0 [] summW langW replyW (fun _ => false) (fun _ => false)
          1 spamEmailW).1.actions_taken ∧
      spamDetectedMsg (detectSpam spamEmailW).score ∈
        (processEmail noDateParse 0 [] summW langW replyW (fun _ => false) (fun _ => false)
          1 spamEmailW).1.actions_taken ∧
      (processEmail noDateParse 0 [] summW langW replyW (fun _ => false) (fun _ => false)
        1 spamEmailW).2 = false ∧
      processEmail noDateParse 0 [] summW langW replyW (fun _ => false) (fun _ => false)
        1 spamEmailW =
        processEmail noDateParse 0 [] summW langW
          (fun _ _ _ => { reply := chars "other", tone := .casual })
          (fun _ => false) (fun _ => false) 1 spamEmailW :=
  (orchestrator_spam_gate noDateParse 0 [] summW langW replyW
    (fun _ _ _ => { reply := chars "other", tone := .casual })
    (fun _ => false) (fun _ => false) 1 spamEmailW).1 spamEmailW_isSpam

/-- Claim C7: the priority of the orchestration result follows the exact
precedence — spam → low; otherwise calendar event or urgent keywords →
high; otherwise newsletter keywords → low; otherwise medium. -/
theorem priority_precedence (parse : ChronoParse) (icsNow : Int) (uid : List Char)
    (summ : SummarizerResult) (lang : LanguageResult)
    (replyGen : Email → SummarizerResult → LanguageResult → ReplyResult)
    (uKw nKw : Email → Bool) (ms : Nat) (email : Email) :
    ((detectSpam email).isSpam = true →
      (processEmail parse icsNow uid summ lang replyGen uKw nKw ms email).1.priority = .low) ∧
    ((detectSpam email).isSpam = false →
      ((extractCalendarEvent parse icsNow uid email).isSome = true ∨ uKw email = true) →
      (processEmail parse icsNow uid summ lang replyGen uKw nKw ms email).1.priority = .high) ∧
    ((detectSpam email).isSpam = false →
      (extractCalendarEvent parse icsNow uid email).isSome = false → uKw email = false →
      nKw email = true →
      (processEmail parse icsNow uid summ lang replyGen uKw nKw ms email).1.priority = .low) ∧
    ((detectSpam email).isSpam = false →
      (extractCalendarEvent parse icsNow uid email).isSome = false → uKw email = false →
      nKw email = false →
      (processEmail parse icsNow uid summ lang replyGen uKw nKw ms email).1.priority = .medium) := by
  simp only [processEmail_priority]
  refine ⟨?_, ?_, ?_, ?_⟩
  · intro h
    simp [calculatePriority, h]
  · rintro h (hc | hu)
    · simp [calculatePriority, h, hc]
    · simp [calculatePriority, h, hu]
  · intro h hc hu hn
    simp [calculatePriority, h, hc, hu, hn]
  · intro h hc hu hn
    simp [calculatePriority, h, hc, hu, hn]

/-- A neutral email that triggers no spam feature. -/
def plainEmailW : Email :=
  { from_ := chars "dave@example.com"
    subject := chars "Project status"
    body := chars "All is well." }

lemma plainEmailW_notSpam : (detectSpam plainEmailW).isSpam = false := by
  have hf : spamFeatures plainEmailW =
      ⟨false, false, false, false, false⟩ := by decide
  rw [detectSpam_isSpam_eq, hf]
  rw [decide_eq_false_iff_not]
  norm_num [rawScore]

/-- Witness for claim C7: all four precedence branches discharged on
concrete inputs (spam → low, urgent → high, newsletter → low,
plain → medium). -/
theorem priority_precedence_witness :
    (processEmail noDateParse 0 [] summW langW replyW (fun _ => true) (fun _ => true)
        1 spamEmailW).1.priority = .low ∧
      (processEmail noDateParse 0 [] summW langW replyW (fun _ => true) (fun _ => false)
        1 plainEmailW).1.priority = .high ∧
      (processEmail noDateParse 0 [] summW langW replyW (fun _ => false) (fun _ => true)
        1 plainEmailW).1.priority = .low ∧
      (processEmail noDateParse 0 [] summW langW replyW (fun _ => false) (fun _ => false)
        1 plainEmailW).1.priority = .medium :=
  ⟨(priority_precedence noDateParse 0 [] summW langW replyW (fun _ => true) (fun _ => true)
      1 spamEmailW).1 spamEmailW_isSpam,
   (priority_precedence noDateParse 0 [] summW langW replyW (fun _ => true) (fun _ => false)
      1 plainEmailW).2.1 plainEmailW_notSpam (Or.inr rfl),
   (priority_precedence noDateParse 0 [] summW langW replyW (fun _ => false) (fun _ => true)
      1 plainEmailW).2.2.1 plainEmailW_notSpam (by decide) rfl rfl,
   (priority_precedence noDateParse 0 [] summW langW replyW (fun _ => false) (fun _ => false)
      1 plainEmailW).2.2.2 plainEmailW_notSpam (by decide) rfl rfl⟩

/-!
## Theorems: ICS serializer (claim C9)
-/

lemma startsL_self (l : List Char) : startsL l l = true := by
  induction l with
  | nil => rfl
  | cons c cs ih => simp [startsL, ih]

lemma startsL_append (p b c : List Char) (h : startsL p b = true) :
    startsL p (b ++ c) = true := by
  induction p generalizing b with
  | nil => rfl
  | cons x xs ih =>
    rcases b with _ | ⟨y, ys⟩
    · exact absurd h (by simp [startsL])
    · simp only [startsL, Bool.and_eq_true] at h
      simpa [startsL, h.1] using ih ys h.2

lemma startsL_pre (p r : List Char) : startsL p (p ++ r) = true :=
  startsL_append p p r (startsL_self p)

lemma endsL_post (p z : List Char) : endsL p (z ++ p) = true := by
  unfold endsL
  rw [List.reverse_append]
  exact startsL_pre p.reverse z.reverse

lemma endsL_append_left (p y t : List Char) (h : endsL p t = true) :
    endsL p (y ++ t) = true := by
  unfold endsL at h ⊢
  rw [List.reverse_append]
  exact startsL_append _ _ _ h

lemma joinCRLF_cons2 (x y : List Char) (ys : List (List Char)) :
    joinCRLF (x :: y :: ys) = x ++ chars "\r\n" ++ joinCRLF (y :: ys) := rfl

lemma joinCRLF_starts (l : List Char) (ls : List (List Char)) :
    startsL l (joinCRLF (l :: ls)) = true := by
  rcases ls with _ | ⟨y, ys⟩
  · exact startsL_self l
  · rw [joinCRLF_cons2, List.append_assoc]
    exact startsL_pre l _

lemma joinCRLF_ends (xs : List (List Char)) (l : List Char) :
    endsL l (joinCRLF (xs ++ [l])) = true := by
  induction xs with
  | nil =>
    simpa [joinCRLF] using endsL_post l []
  | cons x xs ih =>
    rcases xs with _ | ⟨w, ws⟩
    · rw [show ([x] ++ [l] : List (List Char)) = [x, l] from rfl, joinCRLF_cons2]
      simpa [joinCRLF] using endsL_post l (x ++ chars "\r\n")
    · rw [List.cons_append, List.cons_append, joinCRLF_cons2]
      exact endsL_append_left l _ _ (by simpa using ih)

lemma icsLines_last2 (now : Int) (uid : List Char) (event : CalendarEvent) :
    icsLines now uid event =
      (icsHeaderLines now uid event ++ icsLocationLines event ++
        icsDescriptionLines event ++ icsAttendeeLines event ++ [chars "END:VEVENT"]) ++
        [chars "END:VCALENDAR"] := by
  simp [icsLines, List.append_assoc]

lemma replCh_cons (t : Char) (r : List Char) (c : Char) (cs : List Char) :
    replCh t r (c :: cs) = (if c = t then r else [c]) ++ replCh t r cs := rfl

lemma replCh_append (t : Char) (r : List Char) (a b : List Char) :
    replCh t r (a ++ b) = replCh t r a ++ replCh t r b := by
  induction a with
  | nil => rfl
  | cons c a ih => simp [replCh_cons, ih]

lemma escapeICSText_cons (c : Char) (cs : List Char) :
    escapeICSText (c :: cs) = escCh c ++ escapeICSText cs := by
  unfold escapeICSText escCh
  by_cases h1 : c = '\\' <;> by_cases h2 : c = ';' <;> by_cases h3 : c = ',' <;>
    by_cases h4 : c = '\n' <;>
    simp_all [replCh_cons, replCh_append,
      show chars "\\\\" = ['\\', '\\'] from rfl,
      show chars "\\;" = ['\\', ';'] from rfl,
      show chars "\\," = ['\\', ','] from rfl,
      show chars "\\n" = ['\\', 'n'] from rfl]

lemma unescape_escape (s : List Char) : unescapeICS (escapeICSText s) = s := by
  induction s with
  | nil => rfl
  | cons c cs ih =>
    rw [escapeICSText_cons]
    by_cases h1 : c = '\\'
    · subst h1
      simpa [escCh, unescapeICS] using ih
    · by_cases h2 : c = ';'
      · subst h2
        simpa [escCh, unescapeICS] using ih
      · by_cases h3 : c = ','
        · subst h3
          simpa [escCh, unescapeICS] using ih
        · by_cases h4 : c = '\n'
          · subst h4
            simpa [escCh, unescapeICS] using ih
          · rw [show escCh c = [c] from by simp [escCh, h1, h2, h3, h4]]
            rcases hcs : escapeICSText cs with _ | ⟨d, ds⟩
            · rw [hcs] at ih
              simp only [unescapeICS] at ih
              simp [unescapeICS, ← ih]
            · rw [hcs] at ih
              simpa [unescapeICS, h1] using ih

lemma escCh_no_newline (c : Char) : '\n' ∉ escCh c := by
  unfold escCh
  by_cases h1 : c = '\\' <;> by_cases h2 : c = ';' <;> by_cases h3 : c = ',' <;>
    by_cases h4 : c = '\n' <;> simp_all <;> intro hq <;> exact h4 hq.symm

lemma escape_no_newline (s : List Char) : '\n' ∉ escapeICSText s := by
  induction s with
  | nil => simp [escapeICSText, replCh]
  | cons c cs ih =>
    rw [escapeICSText_cons]
    intro hmem
    rcases List.mem_append.mp hmem with h | h
    · exact escCh_no_newline c h
    · exact ih h

lemma countP_loc_locLines (event : CalendarEvent) :
    (icsLocationLines event).countP (fun l => startsL (chars "LOCATION:") l) =
      (match event.location with
       | some l => if l.isEmpty then 0 else 1
       | none => 0) := by
  unfold icsLocationLines
  rcases event.location with _ | l
  · rfl
  · rcases hle : l.isEmpty <;>
      simp [hle, List.countP_cons, List.countP_nil,
        show ∀ x, startsL (chars "LOCATION:")
          (chars "LOCATION:" ++ escapeICSText x) = true from fun x => startsL_pre _ _]

lemma countP_loc_descLines (event : CalendarEvent) :
    (icsDescriptionLines event).countP (fun l => startsL (chars "LOCATION:") l) = 0 := by
  unfold icsDescriptionLines
  rcases event.description with _ | d
  · rfl
  · rcases hde : d.isEmpty <;>
      simp [hde, List.countP_cons, List.countP_nil,
        show ∀ x, startsL (chars "LOCATION:")
          (chars "DESCRIPTION:" ++ escapeICSText x) = false from fun x => rfl]

lemma countP_desc_descLines (event : CalendarEvent) :
    (icsDescriptionLines event).countP (fun l => startsL (chars "DESCRIPTION:") l) =
      (match event.description with
       | some d => if d.isEmpty then 0 else 1
       | none => 0) := by
  unfold icsDescriptionLines
  rcases event.description with _ | d
  · rfl
  · rcases hde : d.isEmpty <;>
      simp [hde, List.countP_cons, List.countP_nil,
        show ∀ x, startsL (chars "DESCRIPTION:")
          (chars "DESCRIPTION:" ++ escapeICSText x) = true from fun x => startsL_pre _ _]

lemma countP_desc_locLines (event : CalendarEvent) :
    (icsLocationLines event).countP (fun l => startsL (chars "DESCRIPTION:") l) = 0 := by
  unfold icsLocationLines
  rcases event.location with _ | l
  · rfl
  · rcases hle : l.isEmpty <;>
      simp [hle, List.countP_cons, List.countP_nil,
        show ∀ x, startsL (chars "DESCRIPTION:")
          (chars "LOCATION:" ++ escapeICSText x) = false from fun x => rfl]

lemma countP_attendee_other (p : List Char → Bool) (event : CalendarEvent)
    (h : ∀ a, p (chars "ATTENDEE;RSVP=TRUE:mailto:" ++ a) = false) :
    (icsAttendeeLines event).countP p = 0 := by
  unfold icsAttendeeLines
  rw [List.countP_eq_zero]
  intro l hl
  rcases List.mem_map.mp hl with ⟨a, _, rfl⟩
  simp [h a]

/-- Claim C9: the generated calendar text starts with `BEGIN:VCALENDAR` and
ends with `END:VCALENDAR`; its lines contain a `VEVENT` block with `UID`,
`DTSTAMP`, `DTSTART`, `DTEND` and `SUMMARY` lines; a `LOCATION` (resp.
`DESCRIPTION`) line appears exactly when the corresponding field is present
and non-empty, holding the escaped field; there is one `ATTENDEE` line per
attendee; and the escaping of the free-text fields rewrites `;`, `,`,
backslash and newline losslessly, so the escaped text carries no raw
newline. -/
theorem generateICS_structure (now : Int) (uid : List Char) (event : CalendarEvent) :
    startsL (chars "BEGIN:VCALENDAR") (generateICS now uid event) = true ∧
      endsL (chars "END:VCALENDAR") (generateICS now uid event) = true ∧
      chars "BEGIN:VEVENT" ∈ icsLines now uid event ∧
      chars "END:VEVENT" ∈ icsLines now uid event ∧
      (chars "UID:" ++ uid) ∈ icsLines now uid event ∧
      (chars "DTSTAMP:" ++ formatICSDate now) ∈ icsLines now uid event ∧
      (chars "DTSTART:" ++ formatICSDate event.date) ∈ icsLines now uid event ∧
      (chars "DTEND:" ++ formatICSDate (icsEndMs event)) ∈ icsLines now uid event ∧
      (chars "SUMMARY:" ++ escapeICSText event.title) ∈ icsLines now uid event ∧
      (icsLines now uid event).countP (fun l => startsL (chars "LOCATION:") l) =
        (match event.location with
         | some l => if l.isEmpty then 0 else 1
         | none => 0) ∧
      (∀ l, event.location = some l → l.isEmpty = false →
        (chars "LOCATION:" ++ escapeICSText l) ∈ icsLines now uid event) ∧
      (icsLines now uid event).countP (fun l => startsL (chars "DESCRIPTION:") l) =
        (match event.description with
         | some d => if d.isEmpty then 0 else 1
         | none => 0) ∧
      (∀ d, event.description = some d → d.isEmpty = false →
        (chars "DESCRIPTION:" ++ escapeICSText d) ∈ icsLines now uid event) ∧
      (icsLines now uid event).countP (fun l => startsL (chars "ATTENDEE") l) =
        event.attendees.length ∧
      (∀ s, unescapeICS (escapeICSText s) = s) ∧
      (∀ s, '\n' ∉ escapeICSText s) := by
  refine ⟨?_, ?_, ?_, ?_, ?_, ?_, ?_, ?_, ?_, ?_, ?_, ?_, ?_, ?_,
    unescape_escape, escape_no_newline⟩
  · exact joinCRLF_starts _ _
  · unfold generateICS
    rw [icsLines_last2]
    exact joinCRLF_ends _ _
  · simp [icsLines, icsHeaderLines]
  · simp [icsLines]
  · simp [icsLines, icsHeaderLines]
  · simp [icsLines, icsHeaderLines]
  · simp [icsLines, icsHeaderLines]
  · simp [icsLines, icsHeaderLines]
  · simp [icsLines, icsHeaderLines]
  · rw [icsLines]
    rw [List.countP_append, List.countP_append, List.countP_append, List.countP_append]
    rw [show (icsHeaderLines now uid event).countP
        (fun l => startsL (chars "LOCATION:") l) = 0 from rfl]
    rw [show ([chars "END:VEVENT", chars "END:VCALENDAR"] : List (List Char)).countP
        (fun l => startsL (chars "LOCATION:") l) = 0 from rfl]
    rw [countP_attendee_other _ event (fun a => rfl)]
    rw [countP_loc_locLines, countP_loc_descLines]
    simp
  · intro l hloc hle
    simp [icsLines, icsLocationLines, hloc, hle]
  · rw [icsLines]
    rw [List.countP_append, List.countP_append, List.countP_append, List.countP_append]
    rw [show (icsHeaderLines now uid event).countP
        (fun l => startsL (chars "DESCRIPTION:") l) = 0 from rfl]
    rw [show ([chars "END:VEVENT", chars "END:VCALENDAR"] : List (List Char)).countP
        (fun l => startsL (chars "DESCRIPTION:") l) = 0 from rfl]
    rw [countP_attendee_other _ event (fun a => rfl)]
    rw [countP_desc_descLines, countP_desc_locLines]
    simp
  · intro d hdesc hde
    simp [icsLines, icsDescriptionLines, hdesc, hde]
  · rw [icsLines]
    rw [List.countP_append, List.countP_append, List.countP_append, List.countP_append]
    rw [show (icsHeaderLines now uid event).countP
        (fun l => startsL (chars "ATTENDEE") l) = 0 from rfl]
    rw [show ([chars "END:VEVENT", chars "END:VCALENDAR"] : List (List Char)).countP
        (fun l => startsL (chars "ATTENDEE") l) = 0 from rfl]
    have hatt : (icsAttendeeLines event).countP (fun l => startsL (chars "ATTENDEE") l)
        = event.attendees.length := by
      unfold icsAttendeeLines
      rw [List.countP_eq_length.mpr, List.length_map]
      intro l hl
      rcases List.mem_map.mp hl with ⟨a, _, rfl⟩
      exact startsL_append _ _ _ (by rfl)
    rw [hatt]
    have hlz : (icsLocationLines event).countP (fun l => startsL (chars "ATTENDEE") l) = 0 := by
      unfold icsLocationLines
      rcases event.location with _ | l
      · rfl
      · rcases hle : l.isEmpty <;>
          simp [hle, List.countP_cons, List.countP_nil,
            show ∀ x, startsL (chars "ATTENDEE")
              (chars "LOCATION:" ++ escapeICSText x) = false from fun x => rfl]
    have hdz : (icsDescriptionLines event).countP
        (fun l => startsL (chars "ATTENDEE") l) = 0 := by
      unfold icsDescriptionLines
      rcases event.description with _ | d
      · rfl
      · rcases hde : d.isEmpty <;>
          simp [hde, List.countP_cons, List.countP_nil,
            show ∀ x, startsL (chars "ATTENDEE")
              (chars "DESCRIPTION:" ++ escapeICSText x) = false from fun x => rfl]
    rw [hlz, hdz]
    omega

end EmailOrch
